import Mathlib

/-!
# Security-transport construction (`config/security.go`)

A shallow embedding of `SecurityConstructor`, `securityArgTypes`,
`makeInsecureTransport` and `makeSecurityTransport`, followed by the
properties proved about them.

Modelling conventions.

* A Go interface value is an `Option`: `none` is the nil interface.
* A Go call that does not return normally (a panic) is `none` in the outer
  `Option` of a result; a call that returns is `some (results)`.
* The methods of `host.Host` and of the peerstore are deterministic getters,
  so a host is a record of their results.
* `csms.SSMuxer` is an external type whose only operation used here is
  `AddTransport`; a muxer is the sequence of the registrations made on it.
* `makeSecurityTransport` additionally reports the positions of the bindings
  whose constructor it called, in call order.
-/

set_option autoImplicit false

namespace Config

/-! ## External collaborators -/

/-- The type `peer.ID`, a Go string type. -/
abbrev PeerID := String

/-- A non-nil `crypto.PrivKey`. -/
structure PrivKeyImpl where
  raw : Nat
  deriving DecidableEq, Repr

/-- A non-nil `crypto.PubKey`. -/
structure PubKeyImpl where
  raw : Nat
  deriving DecidableEq, Repr

/-- The interface `crypto.PrivKey`. -/
abbrev PrivKey := Option PrivKeyImpl

/-- The interface `crypto.PubKey`. -/
abbrev PubKey := Option PubKeyImpl

/-- The network of a host (`inet.Network`), kept abstract. -/
structure Network where
  tag : Nat
  deriving DecidableEq, Repr

/-- The peerstore of a host: the two key lookups the file uses. -/
structure Peerstore where
  PrivKey : PeerID → PrivKey
  PubKey : PeerID → PubKey

/-- A `host.Host`: the results of its three getters used by the file. -/
structure Host where
  ID : PeerID
  Peerstore : Peerstore
  Network : Network

/-- The type `tptu.Upgrader`, kept abstract; `*tptu.Upgrader` is an `Option`. -/
structure Upgrader where
  tag : Nat
  deriving DecidableEq, Repr

/-- A non-nil Go `error` value: one built by `fmt.Errorf`, or any other. -/
inductive ErrorImpl where
  | errorf (msg : String)
  | other (tag : Nat)
  deriving DecidableEq, Repr

/-- The interface `error`. -/
abbrev Error := Option ErrorImpl

/-- A non-nil `security.Transport`, by dynamic type: `*insecure.Transport`
(as built by `insecure.New`), `*secio.Transport` with its two fields set in
this file, or any other implementation. -/
inductive TransportImpl where
  | insecure (id : PeerID)
  | secio (LocalID : PeerID) (PrivateKey : PrivKey)
  | other (tag : Nat)
  deriving DecidableEq, Repr

/-- The interface `security.Transport`. -/
abbrev Transport := Option TransportImpl

/-- The type assertion `tpt.(*insecure.Transport)`: its `ok` result. -/
def isInsecure : Transport → Bool
  | some (TransportImpl.insecure _) => true
  | _ => false

/-- The constant `secio.ID` of package go-libp2p-secio. -/
def secioID : String := "/secio/1.0.0"

/-- The constant `insecure.ID` of package go-conn-security/insecure. -/
def insecureID : String := "/plaintext/1.0.0"

/-- A `csms.SSMuxer`: the registrations made on it, oldest first. -/
structure SSMuxer where
  registered : List (String × Transport)
  deriving DecidableEq, Repr

/-- The muxer `new(csms.SSMuxer)`. -/
def SSMuxer.new : SSMuxer := ⟨[]⟩

/-- The call `secMuxer.AddTransport(path, transport)`. -/
def SSMuxer.AddTransport (sm : SSMuxer) (path : String) (transport : Transport) : SSMuxer :=
  ⟨sm.registered ++ [(path, transport)]⟩

/-! ## `SecC` and `MsSecC` -/

/-- A security transport constructor, `func(h host.Host) (security.Transport, error)`;
`none` is a call that panics. -/
abbrev SecC := Host → Option (Transport × Error)

/-- A security transport constructor together with a protocol ID. -/
structure MsSecC where
  SecC : SecC
  ID : String

/-! ## `makeSecurityTransport` -/

/-- What a call of `makeSecurityTransport` did: the positions of the bindings
whose constructor was called, in call order, and the two results (`none`
when a constructor panicked). -/
structure Outcome where
  calls : List Nat
  ret : Option (Option SSMuxer × Error)
  deriving DecidableEq, Repr

/-- The first loop of `makeSecurityTransport` (lines 68-72): each ID is looked
up in `transportSet`; the loop body never adds to the set, so the set is
passed on as it is. Returns the error of the early return, if any. -/
def duplicateScan (transportSet : List String) : List MsSecC → Error
  | [] => none
  | tptC :: rest =>
    if tptC.ID ∈ transportSet then
      some (ErrorImpl.errorf ("duplicate security transport: " ++ tptC.ID))
    else
      duplicateScan transportSet rest

/-- The error of line 79. -/
def insecureRejected : ErrorImpl :=
  ErrorImpl.errorf
    "cannot construct libp2p with an insecure transport, set the Insecure config option instead"

/-- The second loop of `makeSecurityTransport` (lines 73-82) followed by the
final return of line 91; `pos` is the position of the head of the list. -/
def constructLoop (h : Host) : List MsSecC → Nat → SSMuxer → List Nat → Outcome
  | [], _, secMuxer, calls => ⟨calls, some (some secMuxer, none)⟩
  | tptC :: rest, pos, secMuxer, calls =>
    match tptC.SecC h with
    | none => ⟨calls ++ [pos], none⟩
    | some (_, some err) => ⟨calls ++ [pos], some (none, some err)⟩
    | some (tpt, none) =>
      if isInsecure tpt then
        ⟨calls ++ [pos], some (none, some insecureRejected)⟩
      else
        constructLoop h rest (pos + 1) (secMuxer.AddTransport tptC.ID tpt) (calls ++ [pos])

/-- The function `makeSecurityTransport(h, tpts)`. -/
def makeSecurityTransport (h : Host) (tpts : List MsSecC) : Outcome :=
  let secMuxer := SSMuxer.new
  if tpts.length > 0 then
    match duplicateScan [] tpts with
    | some err => ⟨[], some (none, some err)⟩
    | none => constructLoop h tpts 0 secMuxer []
  else
    let id := h.ID
    let sk := h.Peerstore.PrivKey id
    ⟨[], some (some (secMuxer.AddTransport secioID (some (TransportImpl.secio id sk))), none)⟩

/-- The function `makeInsecureTransport(id)`. -/
def makeInsecureTransport (id : PeerID) : SSMuxer :=
  let secMuxer := SSMuxer.new
  secMuxer.AddTransport insecureID (some (TransportImpl.insecure id))

/-! ## `securityArgTypes` -/

/-- A Go `interface{}` value, as far as this file produces or inspects one. -/
inductive Value where
  | nil
  | host (h : Host)
  | network (n : Network)
  | peerID (id : PeerID)
  | privKey (k : PrivKeyImpl)
  | pubKey (k : PubKeyImpl)
  | pstore (p : Peerstore)
  | transport (t : TransportImpl)

/-- Conversion of a `crypto.PrivKey` to `interface{}`. -/
def Value.ofPrivKey : PrivKey → Value
  | none => Value.nil
  | some k => Value.privKey k

/-- Conversion of a `crypto.PubKey` to `interface{}`. -/
def Value.ofPubKey : PubKey → Value
  | none => Value.nil
  | some k => Value.pubKey k

/-- Conversion of a `security.Transport` to `interface{}`. -/
def Value.ofTransport : Transport → Value
  | none => Value.nil
  | some t => Value.transport t

/-- The type assertion `t.(security.Transport)` with one result: it panics
(`none`) unless the dynamic type of `t` implements the interface. -/
def Value.assertTransport : Value → Option Transport
  | Value.transport t => some (some t)
  | _ => none

/-- Modelled from the spec: the `reflect.Type` variables `hostType`,
`networkType`, `peerIDType`, `privKeyType`, `pubKeyType`, `pstoreType` and
`securityType`, which are declared in another file of the package. They stand
for the seven capabilities of section 3, which are distinct; `other` is any
further type. -/
inductive ReflectType where
  | hostType
  | networkType
  | peerIDType
  | privKeyType
  | pubKeyType
  | pstoreType
  | securityType
  | other (n : Nat)
  deriving DecidableEq, Repr

/-- The type `constructor` of the package, as the map literal uses it:
`func(h host.Host, u *tptu.Upgrader) interface{}`. -/
abbrev ArgConstructor := Host → Option Upgrader → Value

/-- The map literal `securityArgTypes`, entry by entry. -/
def securityArgTypes : List (ReflectType × ArgConstructor) :=
  [ (ReflectType.hostType, fun h _ => Value.host h),
    (ReflectType.networkType, fun h _ => Value.network h.Network),
    (ReflectType.peerIDType, fun h _ => Value.peerID h.ID),
    (ReflectType.privKeyType, fun h _ => Value.ofPrivKey (h.Peerstore.PrivKey h.ID)),
    (ReflectType.pubKeyType, fun h _ => Value.ofPubKey (h.Peerstore.PubKey h.ID)),
    (ReflectType.pstoreType, fun h _ => Value.pstore h.Peerstore) ]

/-! ## `SecurityConstructor` -/

/-- Modelled from the spec: a function-like ConstructorSpec (sections 3 and
4.2), the kind of value `makeConstructor` inspects by reflection: its
parameter types in declared order, its return arity, whether its first return
type is convertible to a given interface type, whether its second return type
is an error, and the function itself (`none` is a call that panics). -/
structure FuncValue where
  params : List ReflectType
  numOut : Nat
  firstOutConvertibleTo : ReflectType → Bool
  secondOutIsError : Bool
  call : List Value → Option (Transport × Error)

/-- The argument `sec interface{}` of `SecurityConstructor`: a value whose
dynamic type implements `security.Transport`, a function-like value, or
anything else (nil included). -/
inductive SecValue where
  | transport (t : TransportImpl)
  | func (f : FuncValue)
  | other (tag : Nat)

/-- Modelled from the spec: the AdaptError of section 4.2 with its reason. -/
def adaptError (reason : String) : ErrorImpl := ErrorImpl.errorf reason

/-- Modelled from the spec: the lookup of every parameter type in the
capability table (section 4.2: every parameter type must map to a known
capability); part of `makeConstructor`, which is not in this file. -/
def argumentConstructors (argTypes : List (ReflectType × ArgConstructor)) :
    List ReflectType → Option (List ArgConstructor)
  | [] => some []
  | ty :: rest =>
    match argTypes.lookup ty, argumentConstructors argTypes rest with
    | some mk, some mks => some (mk :: mks)
    | _, _ => none

/-- Modelled from the spec: `makeConstructor`, declared in another file of the
package, after the Constructor Adapter of section 4.2. A spec that is not
function-like, has a return arity other than 2, a second return that is not an
error, a first return not convertible to the transport type, or a parameter
type outside the table is refused with an AdaptError. Otherwise the result
resolves every parameter from the table in declared order, calls the
underlying function and returns its two results as they are. -/
def makeConstructor (tpt : SecValue) (tptType : ReflectType)
    (argTypes : List (ReflectType × ArgConstructor)) :
    Option (Host → Option Upgrader → Option (Value × Error)) × Error :=
  match tpt with
  | SecValue.func f =>
    if f.numOut ≠ 2 then
      (none, some (adaptError "wrong return arity"))
    else if f.secondOutIsError = false then
      (none, some (adaptError "second return type is not an error"))
    else if f.firstOutConvertibleTo tptType = false then
      (none, some (adaptError "return type is not a security transport"))
    else
      match argumentConstructors argTypes f.params with
      | none => (none, some (adaptError "unsupported parameter type"))
      | some mks =>
        (some (fun h u =>
          (f.call (mks.map (fun mk => mk h u))).map
            (fun r => (Value.ofTransport r.1, r.2))), none)
  | _ => (none, some (adaptError "not a function"))

/-- The closure of lines 49-55: calls `fn(h, nil)`, returns `nil, err` on an
error and the first result asserted to `security.Transport` otherwise. A nil
`fn` panics when called. -/
def normalized (fn : Option (Host → Option Upgrader → Option (Value × Error))) : SecC :=
  fun h =>
    match fn with
    | none => none
    | some fn =>
      match fn h none with
      | none => none
      | some (_, some err) => some (none, some err)
      | some (t, none) =>
        match t.assertTransport with
        | none => none
        | some t => some (t, none)

/-- The function `SecurityConstructor(sec)`. -/
def SecurityConstructor (sec : SecValue) : Option SecC × Error :=
  match sec with
  | SecValue.transport t => (some (fun _ => some (some t, none)), none)
  | _ =>
    match makeConstructor sec ReflectType.securityType securityArgTypes with
    | (_, some err) => (none, some err)
    | (fn, none) => (some (normalized fn), none)

/-! ## Sample inputs -/

/-- A host with peer ID "QmHost" whose peerstore holds one key pair for it. -/
def sampleHost : Host :=
  { ID := "QmHost",
    Peerstore :=
      { PrivKey := fun id => if id = "QmHost" then some ⟨11⟩ else none,
        PubKey := fun id => if id = "QmHost" then some ⟨12⟩ else none },
    Network := ⟨5⟩ }

/-- A constructor that returns the transport `t` and a nil error. -/
def succeeding (t : TransportImpl) : SecC := fun _ => some (some t, none)

/-- A constructor that returns a nil transport and the error `e`. -/
def failing (e : ErrorImpl) : SecC := fun _ => some (none, some e)

/-- Two bindings under the same ID "a", both of whose constructors succeed
with a transport that is not the insecure one. -/
def duplicateBindings : List MsSecC :=
  [⟨succeeding (TransportImpl.other 1), "a"⟩, ⟨succeeding (TransportImpl.other 2), "a"⟩]

/-- Two bindings under distinct IDs whose constructors succeed. -/
def distinctBindings : List MsSecC :=
  [⟨succeeding (TransportImpl.other 1), "tls13"⟩, ⟨succeeding (TransportImpl.other 2), "noise"⟩]

/-- A single binding whose constructor returns the insecure transport. -/
def insecureBinding : List MsSecC :=
  [⟨succeeding (TransportImpl.insecure "QmHost"), "/plaintext/1.0.0"⟩]

/-- Three bindings under distinct IDs; the constructor of the second fails. -/
def secondFails : List MsSecC :=
  [⟨succeeding (TransportImpl.other 1), "tls13"⟩, ⟨failing (ErrorImpl.other 9), "noise"⟩,
    ⟨succeeding (TransportImpl.other 3), "third"⟩]

/-- A function-like spec whose function, whatever its arguments, returns both
a transport and a non-nil error. -/
def bothResults : FuncValue :=
  { params := [ReflectType.peerIDType],
    numOut := 2,
    firstOutConvertibleTo := fun ty => ty == ReflectType.securityType,
    secondOutIsError := true,
    call := fun _ => some (some (TransportImpl.other 7), some (ErrorImpl.other 1)) }

/-- A function-like spec taking the peer ID and its private key and returning
a transport built from them, with a nil error. -/
def keyedTransport : FuncValue :=
  { params := [ReflectType.peerIDType, ReflectType.privKeyType],
    numOut := 2,
    firstOutConvertibleTo := fun ty => ty == ReflectType.securityType,
    secondOutIsError := true,
    call := fun args =>
      match args with
      | [Value.peerID id, Value.privKey k] => some (some (TransportImpl.secio id (some k)), none)
      | _ => none }

/-! ## Lemmas on the two loops -/

theorem duplicateScan_empty_set (tpts : List MsSecC) : duplicateScan [] tpts = none := by
  induction tpts with
  | nil => rfl
  | cons tptC rest ih => simp [duplicateScan, ih]

theorem makeSecurityTransport_eq_constructLoop (h : Host) (tpts : List MsSecC)
    (hne : tpts ≠ []) :
    makeSecurityTransport h tpts = constructLoop h tpts 0 SSMuxer.new [] := by
  have hlen : tpts.length > 0 := List.length_pos.mpr hne
  simp [makeSecurityTransport, hlen, duplicateScan_empty_set]

theorem makeSecurityTransport_nil (h : Host) :
    makeSecurityTransport h [] =
      ⟨[], some (some ⟨[(secioID, some (TransportImpl.secio h.ID (h.Peerstore.PrivKey h.ID)))]⟩,
        none)⟩ := rfl

theorem constructLoop_success_iff (h : Host) (tpts : List MsSecC) (pos : Nat) (m0 : SSMuxer)
    (calls : List Nat) :
    (∃ m, (constructLoop h tpts pos m0 calls).ret = some (some m, none)) ↔
      ∀ b ∈ tpts, ∃ t, b.SecC h = some (t, none) ∧ isInsecure t = false := by
  induction tpts generalizing pos m0 calls with
  | nil => simp [constructLoop]
  | cons b rest ih =>
    cases hb : b.SecC h with
    | none => simp [constructLoop, hb]
    | some r =>
      obtain ⟨t, e⟩ := r
      cases e with
      | some err => simp [constructLoop, hb]
      | none =>
        cases hi : isInsecure t with
        | true => simp [constructLoop, hb, hi]
        | false => simp [constructLoop, hb, hi, ih]

theorem constructLoop_registered (h : Host) (tpts : List MsSecC) (pos : Nat) (m0 m : SSMuxer)
    (calls : List Nat)
    (hok : (constructLoop h tpts pos m0 calls).ret = some (some m, none)) :
    m.registered.map some =
      m0.registered.map some ++
        tpts.map (fun b => (b.SecC h).map (fun r => (b.ID, r.1))) := by
  induction tpts generalizing pos m0 calls with
  | nil =>
    simp only [constructLoop, Option.some.injEq, Prod.mk.injEq, and_true] at hok
    subst hok
    simp
  | cons b rest ih =>
    cases hb : b.SecC h with
    | none => simp [constructLoop, hb] at hok
    | some r =>
      obtain ⟨t, e⟩ := r
      cases e with
      | some err => simp [constructLoop, hb] at hok
      | none =>
        cases hi : isInsecure t with
        | true => simp [constructLoop, hb, hi] at hok
        | false =>
          simp only [constructLoop, hb, hi] at hok
          have := ih (pos + 1) (m0.AddTransport b.ID t) (calls ++ [pos]) (by simpa using hok)
          simpa [SSMuxer.AddTransport, hb] using this

theorem constructLoop_shape (h : Host) (tpts : List MsSecC) (pos : Nat) (m0 : SSMuxer)
    (calls : List Nat) :
    ((constructLoop h tpts pos m0 calls).ret = none ∧ ∃ b ∈ tpts, b.SecC h = none) ∨
      (∃ m, (constructLoop h tpts pos m0 calls).ret = some (some m, none)) ∨
      (∃ e, (constructLoop h tpts pos m0 calls).ret = some (none, some e)) := by
  induction tpts generalizing pos m0 calls with
  | nil => simp [constructLoop]
  | cons b rest ih =>
    cases hb : b.SecC h with
    | none => simp [constructLoop, hb]
    | some r =>
      obtain ⟨t, e⟩ := r
      cases e with
      | some err => simp [constructLoop, hb]
      | none =>
        cases hi : isInsecure t with
        | true => simp [constructLoop, hb, hi]
        | false =>
          simp only [constructLoop, hb, hi]
          rcases ih (pos + 1) (m0.AddTransport b.ID t) (calls ++ [pos]) with h1 | h2 | h3
          · exact Or.inl ⟨h1.1, by
              obtain ⟨c, hc, hcn⟩ := h1.2
              exact ⟨c, List.mem_cons_of_mem _ hc, hcn⟩⟩
          · exact Or.inr (Or.inl (by simpa using h2))
          · exact Or.inr (Or.inr (by simpa using h3))

theorem constructLoop_insecure (h : Host) (tpts : List MsSecC) (pos : Nat) (m0 : SSMuxer)
    (calls : List Nat)
    (hall : ∀ b ∈ tpts, ∃ t, b.SecC h = some (t, none))
    (hins : ∃ b ∈ tpts, ∃ t, b.SecC h = some (t, none) ∧ isInsecure t = true) :
    (constructLoop h tpts pos m0 calls).ret = some (none, some insecureRejected) := by
  induction tpts generalizing pos m0 calls with
  | nil => simp at hins
  | cons b rest ih =>
    obtain ⟨t, hb⟩ := hall b (List.mem_cons_self _ _)
    cases hi : isInsecure t with
    | true => simp [constructLoop, hb, hi]
    | false =>
      simp only [constructLoop, hb, hi]
      apply ih
      · intro c hc
        exact hall c (List.mem_cons_of_mem _ hc)
      · obtain ⟨c, hc, tc, hct, hci⟩ := hins
        rcases List.mem_cons.mp hc with rfl | hc
        · rw [hb] at hct
          simp only [Option.some.injEq, Prod.mk.injEq, and_true] at hct
          subst hct
          rw [hi] at hci
          exact absurd hci (by decide)
        · exact ⟨c, hc, tc, hct, hci⟩

theorem constructLoop_first_error (h : Host) (tpts : List MsSecC) (pos : Nat) (m0 : SSMuxer)
    (calls : List Nat) (i : Nat) (b : MsSecC) (t : Transport) (e : ErrorImpl)
    (hi : tpts[i]? = some b) (herr : b.SecC h = some (t, some e))
    (hpre : ∀ j, j < i → ∀ bj, tpts[j]? = some bj →
      ∃ tj, bj.SecC h = some (tj, none) ∧ isInsecure tj = false) :
    constructLoop h tpts pos m0 calls =
      ⟨calls ++ List.range' pos (i + 1), some (none, some e)⟩ := by
  induction tpts generalizing pos m0 calls i with
  | nil => simp at hi
  | cons b0 rest ih =>
    cases i with
    | zero =>
      simp only [List.getElem?_cons_zero, Option.some.injEq] at hi
      subst hi
      simp [constructLoop, herr]
    | succ k =>
      obtain ⟨t0, hb0, hins0⟩ := hpre 0 (Nat.succ_pos k) b0 (by simp)
      simp only [List.getElem?_cons_succ] at hi
      have hrec := ih (pos + 1) (m0.AddTransport b0.ID t0) (calls ++ [pos]) k hi
        (fun j hj bj hbj => hpre (j + 1) (Nat.succ_lt_succ hj) bj (by simpa using hbj))
      simp only [constructLoop, hb0, hins0]
      rw [hrec]
      simp [List.range'_succ]

/-! ## Lemmas on `SecurityConstructor` -/

theorem normalized_never_both (fn : Option (Host → Option Upgrader → Option (Value × Error)))
    (h : Host) (t : TransportImpl) (e : ErrorImpl) :
    normalized fn h ≠ some (some t, some e) := by
  cases fn with
  | none => simp [normalized]
  | some g =>
    cases hg : g h none with
    | none => simp [normalized, hg]
    | some r =>
      obtain ⟨v, err⟩ := r
      cases err with
      | some e0 => simp [normalized, hg]
      | none =>
        cases hv : v.assertTransport with
        | none => simp [normalized, hg, hv]
        | some t0 => simp [normalized, hg, hv]

/-! ## Properties of `makeSecurityTransport` -/

/-- C1, on the code: for the two bindings of `duplicateBindings`, which share
the ID "a", the call on `sampleHost` reports no duplicate. It calls both
constructors, in order, and returns a nil error with a muxer on which both
transports are registered under "a". -/
theorem makeSecurityTransport_duplicate_accepted :
    makeSecurityTransport sampleHost duplicateBindings =
      ⟨[0, 1],
        some (some ⟨[("a", some (TransportImpl.other 1)), ("a", some (TransportImpl.other 2))]⟩,
          none)⟩ := by
  decide

/-- C2: for a binding list with pairwise-distinct IDs, the call returns a
transport with a nil error exactly when every constructor, applied to the
host, returns a nil error and a transport that is not of the insecure type. -/
theorem makeSecurityTransport_success_iff (h : Host) (tpts : List MsSecC)
    (_hdistinct : (tpts.map MsSecC.ID).Nodup) :
    (∃ m, (makeSecurityTransport h tpts).ret = some (some m, none)) ↔
      ∀ b ∈ tpts, ∃ t, b.SecC h = some (t, none) ∧ isInsecure t = false := by
  cases tpts with
  | nil => simp [makeSecurityTransport_nil]
  | cons b rest =>
    rw [makeSecurityTransport_eq_constructLoop h (b :: rest) (List.cons_ne_nil _ _)]
    exact constructLoop_success_iff h (b :: rest) 0 SSMuxer.new []

theorem makeSecurityTransport_success_iff_witness :
    (distinctBindings.map MsSecC.ID).Nodup ∧
      ((∃ m, (makeSecurityTransport sampleHost distinctBindings).ret = some (some m, none)) ↔
        ∀ b ∈ distinctBindings, ∃ t, b.SecC sampleHost = some (t, none) ∧ isInsecure t = false) :=
  ⟨by decide, makeSecurityTransport_success_iff sampleHost distinctBindings (by decide)⟩

/-- C3: on an empty binding list the call invokes no constructor and returns
a nil error with a muxer whose only registration is, under `secio.ID`, the
secio transport with `LocalID` the host ID and `PrivateKey` the private key
the host peerstore holds for that ID. -/
theorem makeSecurityTransport_empty (h : Host) :
    (makeSecurityTransport h []).ret =
        some (some ⟨[(secioID,
          some (TransportImpl.secio h.ID (h.Peerstore.PrivKey h.ID)))]⟩, none) ∧
      (makeSecurityTransport h []).calls = [] :=
  ⟨rfl, rfl⟩

/-- C4: for a binding list with pairwise-distinct IDs in which every
constructor returns a nil error and at least one returns a transport of the
insecure type, the call returns no transport and the insecure-transport
error. -/
theorem makeSecurityTransport_insecure_rejected (h : Host) (tpts : List MsSecC)
    (_hdistinct : (tpts.map MsSecC.ID).Nodup)
    (hall : ∀ b ∈ tpts, ∃ t, b.SecC h = some (t, none))
    (hins : ∃ b ∈ tpts, ∃ t, b.SecC h = some (t, none) ∧ isInsecure t = true) :
    (makeSecurityTransport h tpts).ret = some (none, some insecureRejected) := by
  have hne : tpts ≠ [] := by
    rintro rfl
    simp at hins
  rw [makeSecurityTransport_eq_constructLoop h tpts hne]
  exact constructLoop_insecure h tpts 0 SSMuxer.new [] hall hins

theorem makeSecurityTransport_insecure_rejected_witness :
    (insecureBinding.map MsSecC.ID).Nodup ∧
      (∀ b ∈ insecureBinding, ∃ t, b.SecC sampleHost = some (t, none)) ∧
      (∃ b ∈ insecureBinding, ∃ t, b.SecC sampleHost = some (t, none) ∧ isInsecure t = true) ∧
      (makeSecurityTransport sampleHost insecureBinding).ret =
        some (none, some insecureRejected) :=
  have hall : ∀ b ∈ insecureBinding, ∃ t, b.SecC sampleHost = some (t, none) := by
    intro b hb
    simp only [insecureBinding, List.mem_singleton] at hb
    subst hb
    exact ⟨_, rfl⟩
  have hins : ∃ b ∈ insecureBinding, ∃ t,
      b.SecC sampleHost = some (t, none) ∧ isInsecure t = true :=
    ⟨_, List.mem_singleton.mpr rfl, _, rfl, rfl⟩
  ⟨by decide, hall, hins,
    makeSecurityTransport_insecure_rejected sampleHost insecureBinding (by decide) hall hins⟩

/-- C6: for a binding list with pairwise-distinct IDs, if the constructor at
position `i` returns the non-nil error `e` and every constructor before it
returned a nil error and a transport that is not insecure, the call returns
no transport and the error `e` itself; the constructors called are those at
positions `0` to `i`, so none after `i` is called. -/
theorem makeSecurityTransport_first_error (h : Host) (tpts : List MsSecC) (i : Nat)
    (b : MsSecC) (t : Transport) (e : ErrorImpl)
    (_hdistinct : (tpts.map MsSecC.ID).Nodup)
    (hi : tpts[i]? = some b) (herr : b.SecC h = some (t, some e))
    (hpre : ∀ j, j < i → ∀ bj, tpts[j]? = some bj →
      ∃ tj, bj.SecC h = some (tj, none) ∧ isInsecure tj = false) :
    (makeSecurityTransport h tpts).ret = some (none, some e) ∧
      (makeSecurityTransport h tpts).calls = List.range (i + 1) ∧
      ∀ k, i < k → k ∉ (makeSecurityTransport h tpts).calls := by
  have hne : tpts ≠ [] := by
    rintro rfl
    simp at hi
  rw [makeSecurityTransport_eq_constructLoop h tpts hne,
    constructLoop_first_error h tpts 0 SSMuxer.new [] i b t e hi herr hpre]
  refine ⟨rfl, ?_, ?_⟩
  · simp [List.range_eq_range']
  · intro k hk
    simp only [List.nil_append, List.mem_range'_1, not_and, not_lt]
    omega

theorem makeSecurityTransport_first_error_witness :
    (secondFails.map MsSecC.ID).Nodup ∧
      (makeSecurityTransport sampleHost secondFails).ret =
        some (none, some (ErrorImpl.other 9)) ∧
      (makeSecurityTransport sampleHost secondFails).calls = List.range (1 + 1) ∧
      ∀ k, 1 < k → k ∉ (makeSecurityTransport sampleHost secondFails).calls :=
  ⟨by decide,
    makeSecurityTransport_first_error sampleHost secondFails 1
      ⟨failing (ErrorImpl.other 9), "noise"⟩ none (ErrorImpl.other 9) (by decide) rfl rfl
      (by
        intro j hj bj hbj
        have hj0 : j = 0 := by omega
        subst hj0
        simp only [secondFails, List.getElem?_cons_zero, Option.some.injEq] at hbj
        subst hbj
        exact ⟨_, rfl, rfl⟩)⟩

/-- C7: for a non-empty binding list on which the call succeeds with muxer
`m`, the registrations on `m` are, in order and in number, the pairs of each
binding's ID with the transport its constructor returned on the host. -/
theorem makeSecurityTransport_registrations (h : Host) (tpts : List MsSecC) (m : SSMuxer)
    (hne : tpts ≠ [])
    (hok : (makeSecurityTransport h tpts).ret = some (some m, none)) :
    m.registered.length = tpts.length ∧
      m.registered.map some =
        tpts.map (fun b => (b.SecC h).map (fun r => (b.ID, r.1))) := by
  rw [makeSecurityTransport_eq_constructLoop h tpts hne] at hok
  have hreg := constructLoop_registered h tpts 0 SSMuxer.new m [] hok
  simp only [SSMuxer.new, List.map_nil, List.nil_append] at hreg
  refine ⟨?_, hreg⟩
  have hlen := congrArg List.length hreg
  simpa using hlen

theorem makeSecurityTransport_registrations_witness :
    distinctBindings ≠ [] ∧
      (makeSecurityTransport sampleHost distinctBindings).ret =
        some (some ⟨[("tls13", some (TransportImpl.other 1)),
          ("noise", some (TransportImpl.other 2))]⟩, none) ∧
      (2 = distinctBindings.length ∧
        [some ("tls13", some (TransportImpl.other 1)),
            some ("noise", some (TransportImpl.other 2))] =
          distinctBindings.map (fun b => (b.SecC sampleHost).map (fun r => (b.ID, r.1)))) :=
  ⟨by simp [distinctBindings], by decide,
    makeSecurityTransport_registrations sampleHost distinctBindings
      ⟨[("tls13", some (TransportImpl.other 1)), ("noise", some (TransportImpl.other 2))]⟩
      (by simp [distinctBindings]) (by decide)⟩

/-- C8: a call never yields a muxer together with an error. Either a
constructor of the list panicked and the call did not return, or it returned
a muxer with a nil error, or a nil transport with a non-nil error. -/
theorem makeSecurityTransport_all_or_nothing (h : Host) (tpts : List MsSecC) :
    ((makeSecurityTransport h tpts).ret = none ∧ ∃ b ∈ tpts, b.SecC h = none) ∨
      (∃ m, (makeSecurityTransport h tpts).ret = some (some m, none)) ∨
      (∃ e, (makeSecurityTransport h tpts).ret = some (none, some e)) := by
  cases tpts with
  | nil => exact Or.inr (Or.inl ⟨_, rfl⟩)
  | cons b rest =>
    rw [makeSecurityTransport_eq_constructLoop h (b :: rest) (List.cons_ne_nil _ _)]
    exact constructLoop_shape h (b :: rest) 0 SSMuxer.new []

/-! ## Properties of `SecurityConstructor` and `securityArgTypes` -/

/-- C5: for an already-constructed security transport `t`,
`SecurityConstructor` returns a nil error and a constructor that, on every
host, returns exactly `t` with a nil error. -/
theorem SecurityConstructor_transport (t : TransportImpl) :
    ∃ c, SecurityConstructor (SecValue.transport t) = (some c, none) ∧
      ∀ h : Host, c h = some (some t, none) :=
  ⟨fun _ => some (some t, none), rfl, fun _ => rfl⟩

/-- C9, as stated, fails: `SecurityConstructor` accepts `bothResults`, whose
function returns a transport together with a non-nil error on every argument
list, and on no host does the normalized constructor return those two
results. -/
theorem SecurityConstructor_func_not_verbatim :
    (∀ args, bothResults.call args =
      some (some (TransportImpl.other 7), some (ErrorImpl.other 1))) ∧
    ∃ c, SecurityConstructor (SecValue.func bothResults) = (some c, none) ∧
      ∀ (h : Host) (args : List Value), c h ≠ bothResults.call args :=
  ⟨fun _ => rfl, _, rfl, fun h _ => normalized_never_both _ h _ _⟩

/-- C9, amended: let `SecurityConstructor` accept a function-like spec and
return the constructor `c`, and let `fn` be the function `makeConstructor`
returned for that spec. On every host `h`: if `fn(h, nil)` returns a non-nil
error, `c(h)` returns a nil transport and that same error; if `fn(h, nil)`
returns a nil error and a first result that is a security transport, `c(h)`
returns that same transport and a nil error; and `c(h)` never returns a
non-nil transport together with a non-nil error. -/
theorem SecurityConstructor_func_results (f : FuncValue) (c : SecC)
    (fn : Host → Option Upgrader → Option (Value × Error)) (h : Host)
    (hacc : SecurityConstructor (SecValue.func f) = (some c, none))
    (hfn : makeConstructor (SecValue.func f) ReflectType.securityType securityArgTypes =
      (some fn, none)) :
    (∀ v e, fn h none = some (v, some e) → c h = some (none, some e)) ∧
    (∀ t, fn h none = some (Value.transport t, none) → c h = some (some t, none)) ∧
    (∀ t e, c h ≠ some (some t, some e)) := by
  have hc : c = normalized (some fn) := by
    simp only [SecurityConstructor, hfn, Prod.mk.injEq, Option.some.injEq, and_true] at hacc
    exact hacc.symm
  subst hc
  refine ⟨?_, ?_, ?_⟩
  · intro v e hcall
    simp [normalized, hcall]
  · intro t hcall
    simp [normalized, hcall, Value.assertTransport]
  · intro t e
    exact normalized_never_both (some fn) h t e

theorem SecurityConstructor_func_results_witness :
    (∃ c fn, SecurityConstructor (SecValue.func bothResults) = (some c, none) ∧
      makeConstructor (SecValue.func bothResults) ReflectType.securityType securityArgTypes =
        (some fn, none) ∧
      fn sampleHost none =
        some (Value.transport (TransportImpl.other 7), some (ErrorImpl.other 1)) ∧
      c sampleHost = some (none, some (ErrorImpl.other 1))) ∧
    (∃ c fn, SecurityConstructor (SecValue.func keyedTransport) = (some c, none) ∧
      makeConstructor (SecValue.func keyedTransport) ReflectType.securityType
        securityArgTypes = (some fn, none) ∧
      fn sampleHost none =
        some (Value.transport (TransportImpl.secio "QmHost" (some ⟨11⟩)), none) ∧
      c sampleHost = some (some (TransportImpl.secio "QmHost" (some ⟨11⟩)), none)) :=
  ⟨⟨_, _, rfl, rfl, rfl,
      (SecurityConstructor_func_results bothResults _ _ sampleHost rfl rfl).1
        (Value.transport (TransportImpl.other 7)) (ErrorImpl.other 1) rfl⟩,
    ⟨_, _, rfl, rfl, rfl,
      (SecurityConstructor_func_results keyedTransport _ _ sampleHost rfl rfl).2.1
        (TransportImpl.secio "QmHost" (some ⟨11⟩)) rfl⟩⟩

/-- C10: `securityArgTypes` has six entries under six distinct keys; on every
host and every upgrader argument the entries return the host itself, its
network, its ID, the private and the public key its peerstore holds for its
ID, and its peerstore; the transport type `securityType` has no entry. -/
theorem securityArgTypes_entries :
    securityArgTypes.length = 6 ∧
      (securityArgTypes.map Prod.fst).Nodup ∧
      (∀ (h : Host) (u : Option Upgrader),
        (securityArgTypes.lookup ReflectType.hostType).map (fun mk => mk h u) =
            some (Value.host h) ∧
          (securityArgTypes.lookup ReflectType.networkType).map (fun mk => mk h u) =
            some (Value.network h.Network) ∧
          (securityArgTypes.lookup ReflectType.peerIDType).map (fun mk => mk h u) =
            some (Value.peerID h.ID) ∧
          (securityArgTypes.lookup ReflectType.privKeyType).map (fun mk => mk h u) =
            some (Value.ofPrivKey (h.Peerstore.PrivKey h.ID)) ∧
          (securityArgTypes.lookup ReflectType.pubKeyType).map (fun mk => mk h u) =
            some (Value.ofPubKey (h.Peerstore.PubKey h.ID)) ∧
          (securityArgTypes.lookup ReflectType.pstoreType).map (fun mk => mk h u) =
            some (Value.pstore h.Peerstore)) ∧
      (securityArgTypes.lookup ReflectType.securityType).isNone = true :=
  ⟨rfl, by decide, fun _ _ => ⟨rfl, rfl, rfl, rfl, rfl, rfl⟩, rfl⟩

end Config
